import Mathlib

/-!
Verification development for the phase-driven code-generation orchestration
core of the aiwa26 repository: conversation-history compaction and error
handling (`UserConversationProcessor`), the streaming SCOF codec boundary,
phase implementation promise fan-out (`PhaseImplementation`), reasoning-effort
arbitration (`PhaseGeneration`), screenshot analysis (`ScreenshotAnalysis`),
and the image-URL validation / auto-fix utilities (`imageUrlValidator`,
`autoFixImageUrls`).

The TypeScript sources are embedded shallowly: impure inputs (network
responses, `Math.random`, `Date.now`, id generation, the opaque
`executeInference` capability) become explicit parameters, JavaScript string
and regex operations become executable Lean functions on `String` /
`List Char`, and thrown exceptions become `Except`.
-/

/-! ## JavaScript string helpers -/

/-- Case-sensitive list prefix test (JS `startsWith` on exploded strings). -/
def listStartsWith : List Char → List Char → Bool
  | [], _ => true
  | _ :: _, [] => false
  | p :: ps, c :: cs => (p = c) && listStartsWith ps cs

/-- Case-insensitive prefix test, modelling a regex with the `i` flag. -/
def listStartsWithCI : List Char → List Char → Bool
  | [], _ => true
  | _ :: _, [] => false
  | p :: ps, c :: cs => (p.toLower = c.toLower) && listStartsWithCI ps cs

/-- Index of the first case-insensitive occurrence of `pat`, if any. -/
def findCI (pat : List Char) : List Char → Option Nat
  | [] => if listStartsWithCI pat [] then some 0 else none
  | c :: cs =>
    if listStartsWithCI pat (c :: cs) then some 0
    else (findCI pat cs).map (· + 1)

/-- Substring containment test (JS `String.prototype.includes`). -/
def listContainsSub (pat : List Char) : List Char → Bool
  | [] => pat.isEmpty
  | c :: cs => listStartsWith pat (c :: cs) || listContainsSub pat cs

/-- JS `s.includes(pat)`. -/
def jsIncludes (s pat : String) : Bool := listContainsSub pat.data s.data

/-- The whitespace characters relevant to the texts handled here; models the
JS `\s` class (restricted to the code points that can occur in this
ASCII prompt and message texts of this codebase, plus NBSP). -/
def jsWhitespaceChar (c : Char) : Bool :=
  c = ' ' || c = '\t' || c = '\n' || c = '\r' || c.val = 11 || c.val = 12 || c.val = 160

/-- Drop leading and trailing whitespace (JS `String.prototype.trim`). -/
def trimChars (l : List Char) : List Char :=
  ((l.dropWhile jsWhitespaceChar).reverse.dropWhile jsWhitespaceChar).reverse

/-- JS `s.trim()`. -/
def jsTrim (s : String) : String := (trimChars s.data).asString

/-- Collapse every maximal run of characters satisfying `p` into a single
space; `inRun` records whether the previous character was part of a run.
Models the JS replacement of every run of a character class by one space. -/
def collapseRunsAux (p : Char → Bool) : Bool → List Char → List Char
  | _, [] => []
  | inRun, c :: rest =>
    if p c then
      (if inRun then collapseRunsAux p true rest
       else ' ' :: collapseRunsAux p true rest)
    else c :: collapseRunsAux p false rest

/-- The JS replacement of every newline run by one space. -/
def collapseNewlineRuns (s : String) : String :=
  (collapseRunsAux (fun c => c = '\n') false s.data).asString

/-- The JS replacement of every whitespace run by one space. -/
def collapseWhitespaceRuns (s : String) : String :=
  (collapseRunsAux jsWhitespaceChar false s.data).asString

/-- Replace the first occurrence of `pat` (a non-empty literal) by `repl`;
models JS `s.replace(pat, repl)` with a string pattern. -/
def jsReplaceFirst (s pat repl : String) : String :=
  match s.splitOn pat with
  | [] => s
  | [_] => s
  | p :: rest => p ++ repl ++ String.intercalate pat rest

/-! ## Conversation messages (`inferutils/common.ts` message shapes) -/

/-- One entry of a multimodal message content array. -/
inductive ContentPart
  | text (text : String)
  | imageUrl (url : String)
deriving DecidableEq

/-- The `content` field of a conversation message: a plain string, an array
of multimodal parts, or `null`/`undefined`. -/
inductive MessageContent
  | text (s : String)
  | parts (ps : List ContentPart)
  | empty
deriving DecidableEq

/-- `ConversationMessage` from `inferutils/common.ts`: role, content,
optional tool calls (the resolved function name of each tool call, `none`
when the `function` field is missing), and a conversation id. -/
structure ConversationMessage where
  role : String
  content : MessageContent
  toolCalls : Option (List (Option String))
  conversationId : String
deriving DecidableEq

/-- `createUserMessage` from `inferutils/common.ts` (a plain user message). -/
def createUserMessage (content : String) : ConversationMessage :=
  ⟨"user", MessageContent.text content, none, ""⟩

/-- `createAssistantMessage` from `inferutils/common.ts`. -/
def createAssistantMessage (content : String) : ConversationMessage :=
  ⟨"assistant", MessageContent.text content, none, ""⟩

/-- The `{...message, conversationId: id}` spread used throughout
`UserConversationProcessor.execute`. -/
def withConversationId (m : ConversationMessage) (id : String) : ConversationMessage :=
  { m with conversationId := id }

/-! ## `UserConversationProcessor.stripSystemContext` -/

def systemContextOpenTag : List Char := "<system_context>".data

def systemContextCloseTag : List Char := "</system_context>".data

/-- Remove every (non-greedy, case-insensitive) block
`<system_context>...</system_context>` together with one optional following
newline, scanning left to right; the fuel argument (instantiated with the
text length) bounds the recursion, and each removal consumes at least the
two tags, so the fuel never runs out. -/
def stripSystemContextAux : Nat → List Char → List Char
  | 0, s => s
  | fuel + 1, s =>
    match findCI systemContextOpenTag s with
    | none => s
    | some i =>
      let afterOpen := (s.drop i).drop systemContextOpenTag.length
      match findCI systemContextCloseTag afterOpen with
      | none => s
      | some j =>
        let afterClose := (afterOpen.drop j).drop systemContextCloseTag.length
        let afterNl :=
          match afterClose with
          | '\n' :: t => t
          | t => t
        s.take i ++ stripSystemContextAux fuel afterNl

/-- `stripSystemContext` from `UserConversationProcessor.ts` line 339:
replace the regex `<system_context>[\s\S]*?<\/system_context>\n?` (flags
`gi`) by the empty string everywhere, then trim. -/
def stripSystemContext (text : String) : String :=
  (trimChars (stripSystemContextAux text.data.length text.data)).asString

/-! ## `UserConversationProcessor.compactifyContext` -/

/-- `Math.floor(0.8 * MAX_LLM_MESSAGES)` (`COMPACTION_THRESHOLD`,
line 345).  For every message count that can occur here the double-precision
product `n * 0.8` rounds to a value with the same floor as the rational
`4n/5`, so the computation is exactly natural division. -/
def compactionThreshold (maxLLMMessages : Nat) : Nat := 4 * maxLLMMessages / 5

/-- `Math.ceil(messages.length * PRESERVE_RECENT_RATIO)` with ratio `0.4`
(`numToPreserve`, line 353); as above the float computation agrees with the
rational ceiling `⌈2n/5⌉ = (2n+4)/5`. -/
def numPreserved (n : Nat) : Nat := (2 * n + 4) / 5

/-- One line of the compactified summary built from one old message
(`compactifyContext` lines 369-420): role label, text extraction per content
shape, system-context stripping, 400-character cap, whitespace
normalisation; returns `none` when the normalised text is empty (the source
only pushes non-empty lines). -/
def messageLine (msg : ConversationMessage) : Option String :=
  let roleLabel :=
    if msg.role = "assistant" then "assistant (you)"
    else if msg.role = "user" then "User" else msg.role
  let messageText :=
    match msg.content with
    | MessageContent.text s => s
    | MessageContent.parts ps =>
      let textParts := String.intercalate " "
        (ps.filterMap (fun p =>
          match p with
          | ContentPart.text s => some s
          | ContentPart.imageUrl _ => none))
      let imageCount := (ps.filter (fun p =>
          match p with
          | ContentPart.imageUrl _ => true
          | ContentPart.text _ => false)).length
      if 0 < imageCount then
        textParts ++ " [" ++ toString imageCount ++ " image(s) attached]"
      else textParts
    | MessageContent.empty =>
      match msg.toolCalls with
      | some tcs =>
        if 0 < tcs.length then
          "[Used tools: " ++
            String.intercalate ", " (tcs.map (fun n => n.getD "unknown_tool")) ++ "]"
        else "[Empty message]"
      | none => "[Empty message]"
  let stripped := stripSystemContext messageText
  let capped :=
    if 400 < stripped.length then (stripped.data.take 400).asString ++ "..."
    else stripped
  let normalised := jsTrim (collapseWhitespaceRuns (collapseNewlineRuns capped))
  if normalised = "" then none else some (roleLabel ++ ": " ++ normalised)

/-- The single synthetic summary message built from the compacted prefix
(`compactifiedLines` / `compactifiedMessage`, lines 363-431); `now` stands
for `Date.now()`. -/
def compactSummaryMessage (now : Nat) (oldMessages : List ConversationMessage) :
    ConversationMessage :=
  let header := ["<Compactified Conversation History>",
    "[" ++ toString oldMessages.length ++ " older messages condensed for context efficiency]",
    ""]
  let footer := ["", "---", "[Recent conversation continues below in full detail...]"]
  { role := "user",
    content := MessageContent.text
      (String.intercalate "\n" (header ++ oldMessages.filterMap messageLine ++ footer)),
    toolCalls := none,
    conversationId := "compactified-" ++ toString now }

/-- `UserConversationProcessor.compactifyContext` (lines 343-445),
parameterised by the `MAX_LLM_MESSAGES` constant (imported from
`../constants`, outside `src/`) and by `Date.now()`.  The
`numToCompactify <= 0` branch (reachable only for lists of length at most
one) mirrors `messages.slice(-numToPreserve)` including the JS `slice(-0)`
quirk; the surrounding `try`/`catch` never fires in this pure model. -/
def compactifyContext (maxLLMMessages now : Nat)
    (messages : List ConversationMessage) : List ConversationMessage :=
  if messages.length < compactionThreshold maxLLMMessages then messages
  else if messages.length - numPreserved messages.length = 0 then
    (if numPreserved messages.length = 0 then messages
     else messages.drop (messages.length - numPreserved messages.length))
  else
    compactSummaryMessage now
        (messages.take (messages.length - numPreserved messages.length))
      :: messages.drop (messages.length - numPreserved messages.length)

/-! ### Compaction lemmas -/

lemma numPreserved_lt (n : Nat) (h : 2 ≤ n) : numPreserved n < n := by
  have h5 : 0 < 5 := by omega
  rw [numPreserved, Nat.div_lt_iff_lt_mul h5]
  omega

lemma numPreserved_le (n : Nat) (h : 2 ≤ n) : numPreserved n ≤ n :=
  Nat.le_of_lt (numPreserved_lt n h)

/-- Below the threshold, compaction returns the history unchanged. -/
lemma compactifyContext_of_lt (M now : Nat) (msgs : List ConversationMessage)
    (h : msgs.length < compactionThreshold M) :
    compactifyContext M now msgs = msgs := by
  unfold compactifyContext
  rw [if_pos h]

/-- At or above a threshold that is at least two, compaction yields the
summary message followed by the preserved suffix. -/
lemma compactifyContext_of_le (M now : Nat) (msgs : List ConversationMessage)
    (hM : 2 ≤ compactionThreshold M) (h : compactionThreshold M ≤ msgs.length) :
    compactifyContext M now msgs =
      compactSummaryMessage now
          (msgs.take (msgs.length - numPreserved msgs.length))
        :: msgs.drop (msgs.length - numPreserved msgs.length) := by
  have h2 : 2 ≤ msgs.length := le_trans hM h
  have hk := numPreserved_lt msgs.length h2
  have hnotlt : ¬ (msgs.length < compactionThreshold M) := not_lt.2 h
  have hne : ¬ (msgs.length - numPreserved msgs.length = 0) := by omega
  unfold compactifyContext
  rw [if_neg hnotlt, if_neg hne]

/-- Length of the preserved suffix. -/
lemma compactify_preserved_length (msgs : List ConversationMessage)
    (h2 : 2 ≤ msgs.length) :
    (msgs.drop (msgs.length - numPreserved msgs.length)).length =
      numPreserved msgs.length := by
  have hk := numPreserved_le msgs.length h2
  rw [List.length_drop]
  omega

/-! ### Example histories -/

/-- A simple concrete conversation message used by the concrete instances. -/
def exMsg : ConversationMessage :=
  ⟨"user", MessageContent.text "hi", none, "c0"⟩

/-- A 100-message history (spec scenario C). -/
def ex100 : List ConversationMessage := List.replicate 100 exMsg

/-- A 196-message history, long enough that even the compacted history
reaches the compaction threshold again. -/
def ex196 : List ConversationMessage := List.replicate 196 exMsg

/-- C1: for a history of length at least `⌊0.8·MAX_LLM_MESSAGES⌋` (with the
threshold at least 2, true for every realistic `MAX_LLM_MESSAGES`, e.g. 100),
`compactifyContext` returns exactly one synthetic summary message followed by
the most recent `⌈0.4·length⌉` original messages unchanged; below the
threshold it returns the input unchanged. -/
theorem compactifyContext_spec (M now : Nat) (msgs : List ConversationMessage)
    (hM : 2 ≤ compactionThreshold M) :
    (compactionThreshold M ≤ msgs.length →
      compactifyContext M now msgs =
        compactSummaryMessage now
            (msgs.take (msgs.length - numPreserved msgs.length))
          :: msgs.drop (msgs.length - numPreserved msgs.length) ∧
      (msgs.drop (msgs.length - numPreserved msgs.length)).length =
        numPreserved msgs.length) ∧
    (msgs.length < compactionThreshold M → compactifyContext M now msgs = msgs) := by
  constructor
  · intro h
    exact ⟨compactifyContext_of_le M now msgs hM h,
      compactify_preserved_length msgs (le_trans hM h)⟩
  · exact compactifyContext_of_lt M now msgs

/-- C1 witness: 100 messages with `MAX_LLM_MESSAGES = 100` trigger compaction
(100 ≥ 80) and produce one summary plus the last 40 messages verbatim. -/
theorem compactifyContext_spec_witness :
    (2 ≤ compactionThreshold 100 ∧ compactionThreshold 100 ≤ ex100.length) ∧
    compactifyContext 100 0 ex100 =
      compactSummaryMessage 0 (ex100.take 60) :: ex100.drop 60 ∧
    (ex100.drop 60).length = 40 := by
  have hM : 2 ≤ compactionThreshold 100 := by decide
  have hn : ex100.length = 100 := by rw [ex100, List.length_replicate]
  have hlen : compactionThreshold 100 ≤ ex100.length := by rw [hn]; decide
  have h := (compactifyContext_spec 100 0 ex100 hM).1 hlen
  rw [hn] at h
  have hnp : numPreserved 100 = 40 := by decide
  rw [hnp] at h
  norm_num at h
  exact ⟨⟨hM, hlen⟩, h.1, h.2⟩

/-- C8 (amended): recompacting an already-compacted history with the same
threshold returns it unchanged — hence the preserved recent messages stay
intact — provided the compacted history stays below the compaction
threshold (`1 + ⌈0.4·L⌉ < ⌊0.8·MAX⌋`, true e.g. for every `L ≤ MAX` when
`MAX = 100`); without this bound the original claim fails
(`compactifyContext_recompaction_counterexample`). -/
theorem compactifyContext_recompaction_stable (M now now' : Nat)
    (msgs : List ConversationMessage) (hM : 2 ≤ compactionThreshold M)
    (hsmall : msgs.length < compactionThreshold M ∨
      1 + numPreserved msgs.length < compactionThreshold M) :
    compactifyContext M now' (compactifyContext M now msgs) =
      compactifyContext M now msgs := by
  by_cases hlt : msgs.length < compactionThreshold M
  · rw [compactifyContext_of_lt M now msgs hlt]
    exact compactifyContext_of_lt M now' msgs hlt
  · have h := not_lt.1 hlt
    have hbound : 1 + numPreserved msgs.length < compactionThreshold M :=
      hsmall.resolve_left hlt
    rw [compactifyContext_of_le M now msgs hM h]
    apply compactifyContext_of_lt
    have h2 : 2 ≤ msgs.length := le_trans hM h
    rw [List.length_cons, compactify_preserved_length msgs h2]
    omega

/-- C8 witness: a 100-message history with `MAX_LLM_MESSAGES = 100` compacts
to 41 messages, below the threshold 80, so recompaction is the identity. -/
theorem compactifyContext_recompaction_stable_witness :
    (2 ≤ compactionThreshold 100 ∧
      1 + numPreserved ex100.length < compactionThreshold 100) ∧
    compactifyContext 100 1 (compactifyContext 100 0 ex100) =
      compactifyContext 100 0 ex100 := by
  have hn : ex100.length = 100 := by rw [ex100, List.length_replicate]
  have hb : 1 + numPreserved ex100.length < compactionThreshold 100 := by
    rw [hn]; decide
  exact ⟨⟨by decide, hb⟩,
    compactifyContext_recompaction_stable 100 0 1 ex100 (by decide) (Or.inr hb)⟩

/-- C8 counterexample: with `MAX_LLM_MESSAGES = 100`, a 196-message history
compacts to 1 summary plus the 79 preserved recent messages (80 total);
recompacting that result triggers compaction again (80 ≥ 80) and shrinks it
to 33 messages, so the preserved recent 40% is NOT left intact — the claim
fails as stated for unbounded histories. -/
theorem compactifyContext_recompaction_counterexample :
    compactionThreshold 100 ≤ ex196.length ∧
    compactifyContext 100 0 ex196 =
      compactSummaryMessage 0 (ex196.take 117) :: ex196.drop 117 ∧
    (ex196.drop 117).length = 79 ∧
    (compactifyContext 100 1 (compactifyContext 100 0 ex196)).length = 33 ∧
    ¬ List.IsSuffix (ex196.drop 117)
        (compactifyContext 100 1 (compactifyContext 100 0 ex196)) := by
  have hn : ex196.length = 196 := by rw [ex196, List.length_replicate]
  have hM : 2 ≤ compactionThreshold 100 := by decide
  have hlen : compactionThreshold 100 ≤ ex196.length := by rw [hn]; decide
  have h1 := compactifyContext_of_le 100 0 ex196 hM hlen
  rw [hn] at h1
  have hnp : numPreserved 196 = 79 := by decide
  rw [hnp] at h1
  norm_num at h1
  have hdroplen : (ex196.drop 117).length = 79 := by rw [List.length_drop, hn]
  have hfirstlen : (compactifyContext 100 0 ex196).length = 80 := by
    rw [h1, List.length_cons, hdroplen]
  have hlen2 : compactionThreshold 100 ≤ (compactifyContext 100 0 ex196).length := by
    rw [hfirstlen]; decide
  have h2 := compactifyContext_of_le 100 1 (compactifyContext 100 0 ex196) hM hlen2
  have hsecondlen :
      (compactifyContext 100 1 (compactifyContext 100 0 ex196)).length = 33 := by
    rw [h2, List.length_cons, List.length_drop, hfirstlen]
    have : numPreserved 80 = 32 := by decide
    rw [this]
  refine ⟨hlen, h1, hdroplen, hsecondlen, ?_⟩
  intro hsuf
  have hle := hsuf.length_le
  rw [hsecondlen, hdroplen] at hle
  omega

/-! ## `UserConversationProcessor.execute` error handling -/

/-- A runtime error from the sandbox (`RuntimeError` in
`sandboxTypes`; only its presence matters to the embedded operations). -/
structure RuntimeError where
  message : String
deriving DecidableEq

/-- An image attachment (`ImageAttachment` in `types/image-attachment`). -/
structure ImageAttachment where
  mimeType : String
  base64Data : String
deriving DecidableEq

/-- The inputs of `UserConversationProcessor.execute`
(`UserConversationInputs`, lines 21-33; the streaming callback is pure UI
narration and does not influence the returned value, so it is omitted; an
absent `images` field is the empty list). -/
structure UserConversationInputs where
  userMessage : String
  pastMessages : List ConversationMessage
  errors : List RuntimeError
  projectUpdates : List String
  images : List ImageAttachment
deriving DecidableEq

/-- The conversational response type (only the `userResponse` field is
produced by `execute`). -/
structure ConversationalResponse where
  userResponse : String
deriving DecidableEq

/-- `UserConversationOutputs` (lines 35-38). -/
structure UserConversationOutputs where
  conversationResponse : ConversationalResponse
  messages : List ConversationMessage
deriving DecidableEq

/-- The errors the inference call can throw, as discriminated by the
`catch` block of `execute` (lines 554-570): `RateLimitExceededError`,
`SecurityError`, or any other error. -/
inductive ConvError
  | rateLimitExceeded
  | securityError
  | other (message : String)
deriving DecidableEq

/-- The successful outcome of the (opaque) `executeInference` call inside
`execute`: the streamed chunks (accumulated into `extractedUserResponse`),
the final `result.string`, and the messages of `result.toolCallContext`
(empty when absent). -/
structure ToolCallResult where
  chunks : List String
  resultString : String
  toolContextMessages : List ConversationMessage
deriving DecidableEq

/-- `FALLBACK_USER_RESPONSE` (line 302). -/
def FALLBACK_USER_RESPONSE : String :=
  "I understand you\x27d like to make some changes to your project. I\x27ll work on that in the next phase."

/-- `USER_PROMPT` (lines 304-316). -/
def USER_PROMPT : String :=
  "\n<system_context>\n## Timestamp:\n\x7b\x7btimestamp\x7d\x7d\n\n## Project runtime errors:\n\x7b\x7berrors\x7d\x7d\n\n## Project updates since last conversation:\n\x7b\x7bprojectUpdates\x7d\x7d\n</system_context>\n\x7b\x7buserMessage\x7d\x7d\n"

/-- `buildUserMessageWithContext` (lines 318-336) in its
`forInference = false` branch, the one whose output enters the returned
conversation history ("To save tokens in conversation history"); `timestamp`
stands for `new Date().toISOString()`.  The `forInference = true` branch
only feeds the opaque inference call (via `PROMPT_UTILS.serializeErrors`,
outside `src/`) and never reaches the outputs. -/
def buildUserMessageWithContextForHistory (timestamp userMessage : String) : String :=
  jsReplaceFirst
    (jsReplaceFirst
      (jsReplaceFirst (jsReplaceFirst USER_PROMPT "\x7b\x7btimestamp\x7d\x7d" timestamp)
        "\x7b\x7buserMessage\x7d\x7d" userMessage)
      "\x7b\x7bprojectUpdates\x7d\x7d" "redacted")
    "\x7b\x7berrors\x7d\x7d" "redacted"

/-- The filter applied to `result.toolCallContext.messages` (line 542):
drop assistant messages whose string content includes `Internal Memo`. -/
def isInternalMemoMessage (m : ConversationMessage) : Bool :=
  m.role = "assistant" &&
    (match m.content with
     | MessageContent.text s => jsIncludes s "Internal Memo"
     | _ => false)

/-- `UserConversationProcessor.execute` (lines 447-571), parameterised by
the timestamp, by the id generator (`IdGenerator.generateConversationId`,
successive calls numbered in source order: 0 = the history user message,
1 = `aiConversationId`, 2 = the inference-input user message, 3... = tool
messages, last = the assistant message) and by the outcome of the opaque
inference call.  A thrown `RateLimitExceededError` or `SecurityError` is
rethrown; any other throw produces the fallback response and history. -/
def userConversationExecute (timestamp : String) (genId : Nat → String)
    (inputs : UserConversationInputs)
    (inferOutcome : Except ConvError ToolCallResult) :
    Except ConvError UserConversationOutputs :=
  match inferOutcome with
  | Except.error ConvError.rateLimitExceeded => Except.error ConvError.rateLimitExceeded
  | Except.error ConvError.securityError => Except.error ConvError.securityError
  | Except.error (ConvError.other _) =>
    Except.ok
      { conversationResponse := { userResponse := FALLBACK_USER_RESPONSE },
        messages := inputs.pastMessages ++
          [withConversationId (createUserMessage inputs.userMessage) (genId 0),
           withConversationId (createAssistantMessage FALLBACK_USER_RESPONSE) (genId 1)] }
  | Except.ok result =>
    let userPromptForHistory :=
      buildUserMessageWithContextForHistory timestamp inputs.userMessage
    let userMessageForHistory :=
      if inputs.images.length ≠ 0 then
        createUserMessage (userPromptForHistory ++ "\n\n[" ++
          toString inputs.images.length ++ " image(s) attached]")
      else createUserMessage userPromptForHistory
    let toolMessages :=
      (result.toolContextMessages.filter (fun m => ¬ isInternalMemoMessage m)).enum.map
        (fun p => withConversationId p.2 (genId (3 + p.1)))
    Except.ok
      { conversationResponse := { userResponse := String.join result.chunks },
        messages := inputs.pastMessages ++
          [withConversationId userMessageForHistory (genId 0)] ++
          toolMessages ++
          [withConversationId (createAssistantMessage result.resultString)
            (genId (3 + toolMessages.length))] }

/-- C2: when the inference call throws a rate-limit or security error,
`execute` rethrows it unchanged; when it throws any other error, `execute`
returns the fixed fallback acknowledgment, with the returned history equal
to the unchanged past messages plus the user message plus the fallback
assistant message. -/
theorem userConversationExecute_error_handling (timestamp : String)
    (genId : Nat → String) (inputs : UserConversationInputs) (e : ConvError) :
    ((e = ConvError.rateLimitExceeded ∨ e = ConvError.securityError) →
      userConversationExecute timestamp genId inputs (Except.error e) =
        Except.error e) ∧
    (∀ msg : String,
      userConversationExecute timestamp genId inputs
          (Except.error (ConvError.other msg)) =
        Except.ok
          { conversationResponse := { userResponse := FALLBACK_USER_RESPONSE },
            messages := inputs.pastMessages ++
              [withConversationId (createUserMessage inputs.userMessage) (genId 0),
               withConversationId (createAssistantMessage FALLBACK_USER_RESPONSE)
                 (genId 1)] }) := by
  constructor
  · rintro (rfl | rfl) <;> rfl
  · intro msg
    rfl

/-- An example input for the error-handling witness. -/
def exConvInputs : UserConversationInputs :=
  { userMessage := "add a dark mode toggle",
    pastMessages := [exMsg],
    errors := [],
    projectUpdates := [],
    images := [] }

/-- C2 witness: a concrete rate-limit error is rethrown, and a concrete
other error produces the fallback history. -/
theorem userConversationExecute_error_handling_witness :
    userConversationExecute "2024-01-01T00:00:00Z" (fun n => toString n)
        exConvInputs (Except.error ConvError.rateLimitExceeded) =
      Except.error ConvError.rateLimitExceeded ∧
    userConversationExecute "2024-01-01T00:00:00Z" (fun n => toString n)
        exConvInputs (Except.error (ConvError.other "network down")) =
      Except.ok
        { conversationResponse := { userResponse := FALLBACK_USER_RESPONSE },
          messages := exConvInputs.pastMessages ++
            [withConversationId (createUserMessage exConvInputs.userMessage) "0",
             withConversationId (createAssistantMessage FALLBACK_USER_RESPONSE) "1"] } :=
  ⟨(userConversationExecute_error_handling "2024-01-01T00:00:00Z"
      (fun n => toString n) exConvInputs ConvError.rateLimitExceeded).1 (Or.inl rfl),
   (userConversationExecute_error_handling "2024-01-01T00:00:00Z"
      (fun n => toString n) exConvInputs ConvError.rateLimitExceeded).2 "network down"⟩

/-! ## Streaming Format Codec (SCOF)

Modelled from the spec: the SCOF codec implementation
(`src/worker/agents/output-formats/streaming-formats/scof.ts`) is not
included under `src/` — only its callers (`PhaseImplementation`,
`FastCodeFixer`) are — so the codec is modelled from spec §4.1 and §3:
`parseStreamingChunks` consumes one text fragment, appends it to the
`StreamingState` accumulator (the raw text buffer accumulator of the spec data model),
and recomputes the completed files and extracted install commands from the
accumulated text, so that parser state is resumable across arbitrary chunk
boundaries.  The concrete markers are modelled as line-based
`FILE_START: <path>` / `FILE_END` delimiters with nesting-aware code-fence
scanning (a close marker inside a fenced block does not close the file) and
`$ <command>` install-command lines outside file blocks; an unterminated
block is a terminal parse error and yields no completed file.  Per-file
start/chunk/close event callbacks are omitted: the claim concerns the final
path-to-content mapping and command list. -/

/-- Split a text into lines at every newline (same semantics as JS
JS split on the newline character), written as a structural recursion so that concrete
instances reduce inside the kernel. -/
def splitLinesAux : List Char → List Char → List String
  | acc, [] => [acc.reverse.asString]
  | acc, c :: rest =>
    if c = '\n' then acc.reverse.asString :: splitLinesAux [] rest
    else splitLinesAux (c :: acc) rest

def splitLines (s : String) : List String := splitLinesAux [] s.data

/-- The internal scan state of the modelled SCOF parser. -/
structure SCOFScan where
  files : List (String × String)
  commands : List String
  openPath : Option String
  openLines : List String
  inFence : Bool
deriving DecidableEq

def scofInit : SCOFScan :=
  { files := [], commands := [], openPath := none, openLines := [], inFence := false }

def scofStartMarker : String := "FILE_START: "

def scofEndMarker : String := "FILE_END"

/-- Process one line of accumulated model output. -/
def scofStep (st : SCOFScan) (line : String) : SCOFScan :=
  match st.openPath with
  | some path =>
    if listStartsWith "```".data line.data then
      { st with inFence := !st.inFence, openLines := st.openLines ++ [line] }
    else if line = scofEndMarker ∧ st.inFence = false then
      let content := String.intercalate "\n" st.openLines
      { st with files := st.files ++ [(path, content)], openPath := none, openLines := [] }
    else { st with openLines := st.openLines ++ [line] }
  | none =>
    if listStartsWith scofStartMarker.data line.data then
      let path := (line.data.drop scofStartMarker.length).asString
      { st with openPath := some path, openLines := [], inFence := false }
    else if listStartsWith "$ ".data line.data then
      { st with commands := st.commands ++ [(line.data.drop 2).asString] }
    else st

/-- Parse a complete accumulated response text. -/
def scofParse (text : String) : SCOFScan :=
  (splitLines text).foldl scofStep scofInit

/-- Whether the accumulated text ends inside an unterminated file block
(the terminal parse error of spec §4.1). -/
def scofParseError (text : String) : Bool := (scofParse text).openPath.isSome

/-- The `StreamingState` of spec §3 for one streamed call: raw text
accumulator, completed files, and the extracted install commands of the
codec-internal parsing state. -/
structure CodeGenerationStreamingState where
  accumulator : String
  completedFiles : List (String × String)
  extractedInstallCommands : List String
deriving DecidableEq

def initialStreamingState : CodeGenerationStreamingState :=
  { accumulator := "", completedFiles := [], extractedInstallCommands := [] }

/-- `parseStreamingChunks`: consume one new chunk, update the accumulator
and recompute the derived parse results. -/
def parseStreamingChunks (chunk : String) (st : CodeGenerationStreamingState) :
    CodeGenerationStreamingState :=
  let acc := st.accumulator ++ chunk
  let parsed := scofParse acc
  { accumulator := acc, completedFiles := parsed.files,
    extractedInstallCommands := parsed.commands }

/-- Feed a list of chunks to the codec one at a time. -/
def runSCOFStream (chunks : List String) : CodeGenerationStreamingState :=
  chunks.foldl (fun st c => parseStreamingChunks c st) initialStreamingState

lemma parseStreamingChunks_accumulator (chunk : String)
    (st : CodeGenerationStreamingState) :
    (parseStreamingChunks chunk st).accumulator = st.accumulator ++ chunk := rfl

lemma string_foldl_append_data (cs : List String) :
    ∀ a : String, (cs.foldl (· ++ ·) a).data =
      a.data ++ (cs.foldl (· ++ ·) "").data := by
  induction cs with
  | nil => intro a; simp
  | cons c cs ih =>
    intro a
    rw [List.foldl_cons, List.foldl_cons, ih (a ++ c), ih ("" ++ c)]
    simp

lemma string_join_cons (c : String) (cs : List String) :
    String.join (c :: cs) = c ++ String.join cs := by
  apply String.ext
  show ((c :: cs).foldl (· ++ ·) "").data = _
  rw [List.foldl_cons, string_foldl_append_data cs ("" ++ c)]
  simp [String.join]

lemma foldl_parseStreamingChunks_accumulator (chunks : List String) :
    ∀ st : CodeGenerationStreamingState,
      (chunks.foldl (fun st c => parseStreamingChunks c st) st).accumulator =
        st.accumulator ++ String.join chunks := by
  induction chunks with
  | nil =>
    intro st
    show st.accumulator = _
    apply String.ext
    simp [String.join]
  | cons c cs ih =>
    intro st
    rw [List.foldl_cons, ih, parseStreamingChunks_accumulator, string_join_cons]
    apply String.ext
    simp

/-- The parse results of a state reached by `parseStreamingChunks` are the
pure parse of its accumulator. -/
lemma foldl_parseStreamingChunks_parsed (chunks : List String)
    (st : CodeGenerationStreamingState)
    (h : st.completedFiles = (scofParse st.accumulator).files ∧
      st.extractedInstallCommands = (scofParse st.accumulator).commands) :
    (chunks.foldl (fun st c => parseStreamingChunks c st) st).completedFiles =
      (scofParse ((chunks.foldl (fun st c => parseStreamingChunks c st) st).accumulator)).files ∧
    (chunks.foldl (fun st c => parseStreamingChunks c st) st).extractedInstallCommands =
      (scofParse ((chunks.foldl (fun st c => parseStreamingChunks c st) st).accumulator)).commands := by
  induction chunks generalizing st with
  | nil => exact h
  | cons c cs ih =>
    rw [List.foldl_cons]
    exact ih (parseStreamingChunks c st) ⟨rfl, rfl⟩

/-- C3: chunk-boundary invariance.  For every complete response text and
every way of splitting it into successive chunks, feeding the chunks one at
a time to `parseStreamingChunks` produces the same final path-to-content
mapping and the same extracted command list as parsing the whole response
in a single call. -/
theorem scof_chunk_boundary_invariance (chunks : List String) (text : String)
    (h : String.join chunks = text) :
    (runSCOFStream chunks).completedFiles =
      (parseStreamingChunks text initialStreamingState).completedFiles ∧
    (runSCOFStream chunks).extractedInstallCommands =
      (parseStreamingChunks text initialStreamingState).extractedInstallCommands := by
  have hacc : (runSCOFStream chunks).accumulator = text := by
    rw [runSCOFStream]
    rw [foldl_parseStreamingChunks_accumulator, h]
    apply String.ext
    simp [initialStreamingState]
  have hinv := foldl_parseStreamingChunks_parsed chunks initialStreamingState
    ⟨rfl, rfl⟩
  have honeshot : (parseStreamingChunks text initialStreamingState).accumulator
      = text := by
    rw [parseStreamingChunks_accumulator]
    apply String.ext
    simp [initialStreamingState]
  have hfiles : (parseStreamingChunks text initialStreamingState).completedFiles =
      (scofParse text).files := by
    show (scofParse ("" ++ text)).files = _
    rw [show ("" : String) ++ text = text from by apply String.ext; simp]
  have hcmds : (parseStreamingChunks text initialStreamingState).extractedInstallCommands =
      (scofParse text).commands := by
    show (scofParse ("" ++ text)).commands = _
    rw [show ("" : String) ++ text = text from by apply String.ext; simp]
  unfold runSCOFStream at hacc ⊢
  constructor
  · rw [hinv.1, hacc, hfiles]
  · rw [hinv.2, hacc, hcmds]

/-- A scenario-A-style response (spec §8): one file plus one install
command. -/
def exSCOFText : String :=
  "FILE_START: a.tsx\nexport const x=1;\nFILE_END\n$ bun add foo"

/-- A 3-chunk split of `exSCOFText` that cuts both the open and the close
marker in the middle. -/
def exSCOFChunks : List String :=
  ["FILE_ST", "ART: a.tsx\nexport const x=1;\nFILE", "_END\n$ bun add foo"]

/-- C3 witness: on the concrete split the streamed parse agrees with the
one-shot parse, and both recover the declared file and command. -/
theorem scof_chunk_boundary_invariance_witness :
    String.join exSCOFChunks = exSCOFText ∧
    (runSCOFStream exSCOFChunks).completedFiles =
      (parseStreamingChunks exSCOFText initialStreamingState).completedFiles ∧
    (runSCOFStream exSCOFChunks).extractedInstallCommands =
      (parseStreamingChunks exSCOFText initialStreamingState).extractedInstallCommands ∧
    (runSCOFStream exSCOFChunks).completedFiles = [("a.tsx", "export const x=1;")] ∧
    (runSCOFStream exSCOFChunks).extractedInstallCommands = ["bun add foo"] := by
  have hjoin : String.join exSCOFChunks = exSCOFText := by
    apply String.ext
    decide
  have h := scof_chunk_boundary_invariance exSCOFChunks exSCOFText hjoin
  refine ⟨hjoin, h.1, h.2, ?_, ?_⟩ <;> decide

/-! ## Image URL validator (`src/unnamed/part_001`) -/

/-- JS `parseInt` on a non-empty digit string. -/
def digitsVal (l : List Char) : Nat :=
  l.foldl (fun acc c => 10 * acc + (c.toNat - 48)) 0

/-- First match of the regex `[?&]k=(\d+)` (with `k` the given key
character), returning the captured number; models the `url.match` calls of
`extractDimensions` (part_001 lines 40-41). -/
def findDimParam (key : Char) : List Char → Option Nat
  | [] => none
  | c :: rest =>
    if c = '?' ∨ c = '&' then
      match rest with
      | k :: e :: d :: more =>
        if k = key ∧ e = '=' ∧ d.isDigit = true then
          some (digitsVal ((d :: more).takeWhile Char.isDigit))
        else findDimParam key rest
      | _ => findDimParam key rest
    else findDimParam key rest

/-- The result shape of `extractDimensions`. -/
structure Dimensions where
  width : Nat
  height : Nat
deriving DecidableEq

/-- `extractDimensions` (part_001 lines 39-47): `w=`/`h=` query parameters
with defaults 800 and 600. -/
def extractDimensions (url : String) : Dimensions :=
  { width := (findDimParam 'w' url.data).getD 800,
    height := (findDimParam 'h' url.data).getD 600 }

/-- First match of `photo-([^?]+)` (the capture group), models
`url.match(/photo-([^?]+)/)` in `extractImageContext`. -/
def extractPhotoId : List Char → Option (List Char)
  | [] => none
  | c :: rest =>
    if listStartsWith "photo-".data (c :: rest) then
      let cap := ((c :: rest).drop 6).takeWhile (fun ch => ¬ ch = '?')
      if cap = [] then extractPhotoId rest else some cap
    else extractPhotoId rest

/-- `extractImageContext` (part_001 lines 52-62): the first 10 characters
of the Unsplash photo id when present, otherwise a random seed
(`Math.random().toString(36).substring(2, 12)`, passed in as the
`randomSeed` parameter). -/
def extractImageContext (randomSeed : String) (url : String) : String :=
  match extractPhotoId url.data with
  | some cap => (cap.take 10).asString
  | none => randomSeed

/-- `FALLBACK_IMAGE_SERVICES.picsum` (part_001 lines 30-31); an empty seed
is JS-falsy, so the `?random=` query is omitted for it. -/
def picsumUrl (width height : Nat) (seed : String) : String :=
  "https://picsum.photos/" ++ toString width ++ "/" ++ toString height ++
    (if seed = "" then "" else "?random=" ++ seed)

/-- The outcome of the HEAD request issued by `validateImageUrl`: a
response (with `response.ok` and `response.status`) or a thrown
failure/timeout. -/
inductive HeadOutcome
  | response (ok : Bool) (status : Nat)
  | failure (message : String)
deriving DecidableEq

/-- `ImageValidationResult` (part_001 lines 12-18). -/
structure ImageValidationResult where
  url : String
  isValid : Bool
  statusCode : Option Nat
  error : Option String
  alternativeUrl : Option String
deriving DecidableEq

/-- `validateImageUrl` (part_001 lines 68-123), parameterised by the HEAD
request outcome and the random seed drawn inside `extractImageContext`. -/
def validateImageUrl (randomSeed url : String) (outcome : HeadOutcome) :
    ImageValidationResult :=
  match outcome with
  | HeadOutcome.response ok status =>
    { url := url, isValid := ok, statusCode := some status, error := none,
      alternativeUrl :=
        if ok then none
        else some (picsumUrl (extractDimensions url).width
          (extractDimensions url).height (extractImageContext randomSeed url)) }
  | HeadOutcome.failure message =>
    { url := url, isValid := false, statusCode := none, error := some message,
      alternativeUrl :=
        some (picsumUrl (extractDimensions url).width
          (extractDimensions url).height (extractImageContext randomSeed url)) }

/-- Whether the HEAD request failed (non-ok response, or thrown
error/timeout). -/
def headFailed : HeadOutcome → Bool
  | HeadOutcome.response ok _ => !ok
  | HeadOutcome.failure _ => true

lemma extractPhotoId_ne_nil (l : List Char) (cap : List Char)
    (h : extractPhotoId l = some cap) : cap ≠ [] := by
  induction l with
  | nil => simp [extractPhotoId] at h
  | cons c rest ih =>
    rw [extractPhotoId] at h
    by_cases hpre : listStartsWith "photo-".data (c :: rest) = true
    · rw [if_pos hpre] at h
      by_cases hcap : ((c :: rest).drop 6).takeWhile (fun ch => ¬ ch = '?') = []
      · rw [if_pos hcap] at h
        exact ih h
      · rw [if_neg hcap] at h
        cases h
        exact hcap
    · rw [if_neg hpre] at h
      exact ih h

lemma asString_ne_empty (l : List Char) (h : l ≠ []) : l.asString ≠ "" := by
  intro hs
  apply h
  have := congrArg String.data hs
  simpa using this

lemma extractImageContext_ne_empty (randomSeed url : String)
    (hrs : randomSeed ≠ "") : extractImageContext randomSeed url ≠ "" := by
  rw [extractImageContext]
  cases hpid : extractPhotoId url.data with
  | none => exact hrs
  | some cap =>
    apply asString_ne_empty
    have hcap := extractPhotoId_ne_nil url.data cap hpid
    intro htake
    apply hcap
    rcases (List.take_eq_nil_iff).1 htake with h10 | hnil
    · exact absurd h10 (by omega)
    · exact hnil

/-- C4: whenever the HEAD request yields a non-ok status or throws
(failure/timeout), `validateImageUrl` reports `isValid := false` together
with a non-empty `alternativeUrl` of the form
`https://picsum.photos/<width>/<height>?random=<seed>`, where width and
height come from the `w=`/`h=` query parameters of the URL (defaulting to
800×600) and, for Unsplash photo URLs, the seed is the first 10 characters
of the photo id.  The hypothesis `randomSeed ≠ ""` reflects that
`Math.random().toString(36).substring(2, 12)` is non-empty for every random
draw except the measure-zero value 0. -/
theorem validateImageUrl_failure_fallback (randomSeed url : String)
    (outcome : HeadOutcome) (hrs : randomSeed ≠ "")
    (hfail : headFailed outcome = true) :
    (validateImageUrl randomSeed url outcome).isValid = false ∧
    ∃ seed : String, seed ≠ "" ∧
      (validateImageUrl randomSeed url outcome).alternativeUrl =
        some ("https://picsum.photos/" ++ toString (extractDimensions url).width ++
          "/" ++ toString (extractDimensions url).height ++ "?random=" ++ seed) ∧
      (∀ pid : List Char, extractPhotoId url.data = some pid →
        seed = (pid.take 10).asString) := by
  have hseed := extractImageContext_ne_empty randomSeed url hrs
  have hform : picsumUrl (extractDimensions url).width (extractDimensions url).height
      (extractImageContext randomSeed url) =
      "https://picsum.photos/" ++ toString (extractDimensions url).width ++
        "/" ++ toString (extractDimensions url).height ++ "?random=" ++
        extractImageContext randomSeed url := by
    rw [picsumUrl, if_neg hseed]
    apply String.ext
    simp
  have hpidseed : ∀ pid : List Char, extractPhotoId url.data = some pid →
      extractImageContext randomSeed url = (pid.take 10).asString := by
    intro pid hpid
    rw [extractImageContext, hpid]
  cases outcome with
  | response ok status =>
    have hok : ok = false := by
      simpa [headFailed] using hfail
    subst hok
    refine ⟨rfl, extractImageContext randomSeed url, hseed, ?_, hpidseed⟩
    show some _ = some _
    rw [hform]
  | failure message =>
    refine ⟨rfl, extractImageContext randomSeed url, hseed, ?_, hpidseed⟩
    show some _ = some _
    rw [hform]

/-- The scenario-D Unsplash URL (spec §8). -/
def exUnsplashUrl : String :=
  "https://images.unsplash.com/photo-1544367567-0f2fcb009e0b?w=800&h=600"

/-- C4 witness: scenario D — the failing Unsplash URL is replaced by
`https://picsum.photos/800/600?random=1544367567`. -/
theorem validateImageUrl_failure_fallback_witness :
    ("r" : String) ≠ "" ∧
    headFailed (HeadOutcome.response false 404) = true ∧
    (validateImageUrl "r" exUnsplashUrl (HeadOutcome.response false 404)).isValid
      = false ∧
    (validateImageUrl "r" exUnsplashUrl (HeadOutcome.response false 404)).alternativeUrl
      = some "https://picsum.photos/800/600?random=1544367567" := by
  have h := validateImageUrl_failure_fallback "r" exUnsplashUrl
    (HeadOutcome.response false 404) (by decide) (by decide)
  exact ⟨by decide, by decide, h.1, by decide⟩

/-! ## Unsplash URL extraction and `autoFixImageUrls` -/

/-- The delimiter class (whitespace, double or single quote, angle
brackets, closing parenthesis) of the URL-extraction regexes. -/
def urlStopChar (c : Char) : Bool :=
  jsWhitespaceChar c || c = Char.ofNat 34 || c = Char.ofNat 39 ||
    c = '<' || c = '>' || c = ')'

/-- Case-insensitive literal prefix strip. -/
def stripPrefixCI (pat s : List Char) : Option (List Char) :=
  if listStartsWithCI pat s then some (s.drop pat.length) else none

/-- Try to match the Unsplash URL pattern (`https?`, the host
`images.unsplash.com`, then one or more non-delimiter characters; flags `gi`) at
the start of `s`; on success return the matched characters (in original
case) and the remaining input. -/
def matchUnsplashAt (s : List Char) : Option (List Char × List Char) :=
  match stripPrefixCI "http".data s with
  | none => none
  | some s1 =>
    let tail :=
      match stripPrefixCI "s".data s1 with
      | some s2 =>
        match stripPrefixCI "://images.unsplash.com/".data s2 with
        | some r => some r
        | none => stripPrefixCI "://images.unsplash.com/".data s1
      | none => stripPrefixCI "://images.unsplash.com/".data s1
    match tail with
    | none => none
    | some s3 =>
      let run := s3.takeWhile (fun c => ¬ urlStopChar c = true)
      if run = [] then none
      else some (s.take (s.length - (s3.drop run.length).length), s3.drop run.length)

/-- Left-to-right global scan for Unsplash URLs; every successful match
consumes at least one character, so fuel equal to the text length
suffices. -/
def scanUnsplashAux : Nat → List Char → List String
  | 0, _ => []
  | _ + 1, [] => []
  | fuel + 1, c :: rest =>
    match matchUnsplashAt (c :: rest) with
    | some (url, remaining) => url.asString :: scanUnsplashAux fuel remaining
    | none => scanUnsplashAux fuel rest

/-- Order-preserving deduplication (JS `[...new Set(matches)]`). -/
def dedupFirstAux (seen : List String) : List String → List String
  | [] => []
  | x :: xs =>
    if x ∈ seen then dedupFirstAux seen xs
    else x :: dedupFirstAux (x :: seen) xs

/-- `extractUnsplashUrls` (part_001 lines 161-165):
match the Unsplash URL regex (flags `gi`) against the content, with
duplicates removed. -/
def extractUnsplashUrls (content : String) : List String :=
  dedupFirstAux [] (scanUnsplashAux content.data.length content.data)

/-- `BrokenImageFix` (part_001 lines 20-24). -/
structure BrokenImageFix where
  originalUrl : String
  replacementUrl : String
  reason : String
deriving DecidableEq

/-- `validateImageUrls` (part_001 lines 128-147): validate each URL (in
batches of 5 concurrent HEAD requests; batching only schedules the
requests, the resulting URL-keyed map enumerates results in input order
because the input list is already deduplicated).  The network and the
random seed are the two impure inputs, passed as the oracles `headOutcome`
and `randSeed`. -/
def validateImageUrls (headOutcome : String → HeadOutcome)
    (randSeed : String → String) (urls : List String) :
    List ImageValidationResult :=
  urls.map (fun u => validateImageUrl (randSeed u) u (headOutcome u))

/-- The status part of the fix reason text: the status code, or the word
error when the code is 0 or absent (both JS-falsy). -/
def statusReason : Option Nat → String
  | some n => if n = 0 then "error" else toString n
  | none => "error"

/-- `generateImageUrlFixes` (part_001 lines 170-205), with the network and
randomness oracles made explicit; a fix is recorded for every validated URL
that is invalid and has a JS-truthy (non-empty) `alternativeUrl`. -/
def generateImageUrlFixes (headOutcome : String → HeadOutcome)
    (randSeed : String → String) (content : String) : List BrokenImageFix :=
  let unsplashUrls := extractUnsplashUrls content
  if unsplashUrls = [] then []
  else
    (validateImageUrls headOutcome randSeed unsplashUrls).filterMap (fun r =>
      match r.alternativeUrl with
      | some alt =>
        if r.isValid = false ∧ ¬ alt = "" then
          some { originalUrl := r.url, replacementUrl := alt,
                 reason := "URL returned " ++ statusReason r.statusCode ++
                   " - replaced with reliable alternative" }
        else none
      | none => none)

/-- Replace every non-overlapping occurrence of the (non-empty) pattern,
scanning left to right; models the global regex-escaped literal
replacement of `applyImageUrlFixes`.  Every step consumes at least one
character, so fuel equal to the text length suffices. -/
def jsReplaceAllAux (pat repl : List Char) : Nat → List Char → List Char
  | _, [] => []
  | 0, s => s
  | fuel + 1, c :: rest =>
    if ¬ pat = [] ∧ listStartsWith pat (c :: rest) = true then
      repl ++ jsReplaceAllAux pat repl fuel ((c :: rest).drop pat.length)
    else c :: jsReplaceAllAux pat repl fuel rest

def jsReplaceAll (s pat repl : String) : String :=
  (jsReplaceAllAux pat.data repl.data s.data.length s.data).asString

/-- `applyImageUrlFixes` (part_001 lines 210-224). -/
def applyImageUrlFixes (content : String) (fixes : List BrokenImageFix) : String :=
  fixes.foldl (fun c fix => jsReplaceAll c fix.originalUrl fix.replacementUrl) content

/-- `FileOutputType` (`schemas`): path, contents and purpose of one
generated file. -/
structure FileOutput where
  filePath : String
  fileContents : String
  filePurpose : String
deriving DecidableEq

/-- The "skip non-code files" test of `autoFixImageUrls`
(PhaseGeneration.ts lines 566-570). -/
def skipNonCodeFile (path : String) : Bool :=
  listStartsWith ".json".data.reverse path.data.reverse ||
    listStartsWith ".md".data.reverse path.data.reverse ||
    listStartsWith ".css".data.reverse path.data.reverse

/-- `ImageFixResult` (PhaseGeneration.ts lines 466-470). -/
structure ImageFixResult where
  filesFixed : Nat
  urlsReplaced : Nat
  fixes : List BrokenImageFix
deriving DecidableEq

/-- The loop accumulator of `autoFixImageUrls`: the `fixedFiles` and
`allFixes` arrays and the `totalUrlsReplaced` / `filesFixed` counters. -/
structure AutoFixAcc where
  fixedFiles : List FileOutput
  allFixes : List BrokenImageFix
  urlsReplaced : Nat
  filesFixed : Nat
deriving DecidableEq

/-- One iteration of the `for (const file of files)` loop of
`autoFixImageUrls` (PhaseGeneration.ts lines 564-613). -/
def autoFixStep (headOutcome : String → HeadOutcome) (randSeed : String → String)
    (acc : AutoFixAcc) (file : FileOutput) : AutoFixAcc :=
  if skipNonCodeFile file.filePath = true then
    { acc with fixedFiles := acc.fixedFiles ++ [file] }
  else if extractUnsplashUrls file.fileContents = [] then
    { acc with fixedFiles := acc.fixedFiles ++ [file] }
  else
    let fileFixes := generateImageUrlFixes headOutcome randSeed file.fileContents
    if fileFixes = [] then
      { acc with fixedFiles := acc.fixedFiles ++ [file] }
    else
      { fixedFiles := acc.fixedFiles ++
          [{ file with fileContents := applyImageUrlFixes file.fileContents fileFixes }],
        allFixes := acc.allFixes ++ fileFixes,
        urlsReplaced := acc.urlsReplaced + fileFixes.length,
        filesFixed := acc.filesFixed + 1 }

/-- `autoFixImageUrls` (PhaseGeneration.ts lines 554-630). -/
def autoFixImageUrls (headOutcome : String → HeadOutcome)
    (randSeed : String → String) (files : List FileOutput) :
    List FileOutput × ImageFixResult :=
  let acc := files.foldl (autoFixStep headOutcome randSeed) ⟨[], [], 0, 0⟩
  (acc.fixedFiles,
    { filesFixed := acc.filesFixed, urlsReplaced := acc.urlsReplaced,
      fixes := acc.allFixes })

/-- The per-file output of one loop iteration (the iteration appends
exactly this file to `fixedFiles`). -/
def autoFixOneFile (headOutcome : String → HeadOutcome)
    (randSeed : String → String) (file : FileOutput) : FileOutput :=
  if skipNonCodeFile file.filePath = true then file
  else if extractUnsplashUrls file.fileContents = [] then file
  else
    let fileFixes := generateImageUrlFixes headOutcome randSeed file.fileContents
    if fileFixes = [] then file
    else { file with fileContents := applyImageUrlFixes file.fileContents fileFixes }

lemma autoFixStep_fixedFiles (ho : String → HeadOutcome) (rs : String → String)
    (acc : AutoFixAcc) (f : FileOutput) :
    (autoFixStep ho rs acc f).fixedFiles =
      acc.fixedFiles ++ [autoFixOneFile ho rs f] := by
  unfold autoFixStep autoFixOneFile
  by_cases h1 : skipNonCodeFile f.filePath = true
  · simp [h1]
  · by_cases h2 : extractUnsplashUrls f.fileContents = []
    · simp [h1, h2]
    · by_cases h3 : generateImageUrlFixes ho rs f.fileContents = []
      · simp [h1, h2, h3]
      · simp [h1, h2, h3]

lemma autoFix_foldl_fixedFiles (ho : String → HeadOutcome) (rs : String → String)
    (files : List FileOutput) :
    ∀ acc : AutoFixAcc,
      (files.foldl (autoFixStep ho rs) acc).fixedFiles =
        acc.fixedFiles ++ files.map (autoFixOneFile ho rs) := by
  induction files with
  | nil => intro acc; simp
  | cons f fs ih =>
    intro acc
    rw [List.foldl_cons, List.map_cons, ih (autoFixStep ho rs acc f),
      autoFixStep_fixedFiles]
    simp

lemma autoFixStep_unchanged (ho : String → HeadOutcome) (rs : String → String)
    (acc : AutoFixAcc) (f : FileOutput)
    (h : extractUnsplashUrls f.fileContents = []) :
    autoFixStep ho rs acc f = { acc with fixedFiles := acc.fixedFiles ++ [f] } := by
  unfold autoFixStep
  by_cases h1 : skipNonCodeFile f.filePath = true
  · rw [if_pos h1]
  · rw [if_neg h1, if_pos h]

lemma autoFix_foldl_unchanged (ho : String → HeadOutcome) (rs : String → String)
    (files : List FileOutput)
    (h : ∀ f ∈ files, extractUnsplashUrls f.fileContents = []) :
    ∀ acc : AutoFixAcc,
      files.foldl (autoFixStep ho rs) acc =
        { acc with fixedFiles := acc.fixedFiles ++ files } := by
  induction files with
  | nil => intro acc; simp
  | cons f fs ih =>
    intro acc
    rw [List.foldl_cons, autoFixStep_unchanged ho rs acc f (h f (by simp)),
      ih (fun g hg => h g (by simp [hg]))]
    simp

/-- C9: `autoFixImageUrls` is the identity on content without Unsplash
URLs: when no file content matches the Unsplash URL pattern (in particular
for already-fixed content containing only `picsum.photos` URLs), every file
is returned unchanged and the result reports `urlsReplaced = 0` and
`filesFixed = 0`. -/
theorem autoFixImageUrls_noUnsplash (ho : String → HeadOutcome)
    (rs : String → String) (files : List FileOutput)
    (h : ∀ f ∈ files, extractUnsplashUrls f.fileContents = []) :
    autoFixImageUrls ho rs files =
      (files, { filesFixed := 0, urlsReplaced := 0, fixes := [] }) := by
  unfold autoFixImageUrls
  rw [autoFix_foldl_unchanged ho rs files h]
  simp

/-- An already-fixed file containing only a `picsum.photos` URL. -/
def exCleanFile : FileOutput :=
  { filePath := "src/App.tsx",
    fileContents := "<img src=\"https://picsum.photos/800/600?random=1\" />",
    filePurpose := "main app" }

/-- C9 witness: on a concrete picsum-only file the auto-fix reports zero
replacements and returns the file unchanged. -/
theorem autoFixImageUrls_noUnsplash_witness :
    extractUnsplashUrls exCleanFile.fileContents = [] ∧
    autoFixImageUrls (fun _ => HeadOutcome.response true 200) (fun _ => "s")
        [exCleanFile] =
      ([exCleanFile], { filesFixed := 0, urlsReplaced := 0, fixes := [] }) := by
  have hx : extractUnsplashUrls exCleanFile.fileContents = [] := by decide
  refine ⟨hx, autoFixImageUrls_noUnsplash _ _ _ ?_⟩
  intro f hf
  rw [List.mem_singleton] at hf
  rw [hf]
  exact hx

lemma autoFixOneFile_frame (ho : String → HeadOutcome) (rs : String → String)
    (f : FileOutput) :
    (autoFixOneFile ho rs f).filePath = f.filePath ∧
    (autoFixOneFile ho rs f).filePurpose = f.filePurpose ∧
    (skipNonCodeFile f.filePath = true → autoFixOneFile ho rs f = f) := by
  unfold autoFixOneFile
  by_cases h1 : skipNonCodeFile f.filePath = true
  · simp [h1]
  · by_cases h2 : extractUnsplashUrls f.fileContents = []
    · simp [h1, h2]
    · by_cases h3 : generateImageUrlFixes ho rs f.fileContents = []
      · simp [h1, h2, h3]
      · simp [h1, h2, h3]

/-- C10: `autoFixImageUrls` returns one output file per input file, in
order; each output file agrees with its input on `filePath` and
`filePurpose` (only `fileContents` may change); and every `.json`, `.md`
or `.css` file is returned entirely unchanged. -/
theorem autoFixImageUrls_frame (ho : String → HeadOutcome)
    (rs : String → String) (files : List FileOutput) :
    (autoFixImageUrls ho rs files).1.length = files.length ∧
    List.Forall₂ (fun a b =>
        b.filePath = a.filePath ∧ b.filePurpose = a.filePurpose ∧
        (skipNonCodeFile a.filePath = true → b = a))
      files (autoFixImageUrls ho rs files).1 := by
  have hmap : (autoFixImageUrls ho rs files).1 = files.map (autoFixOneFile ho rs) := by
    show (files.foldl (autoFixStep ho rs) ⟨[], [], 0, 0⟩).fixedFiles = _
    rw [autoFix_foldl_fixedFiles ho rs files]
    simp
  rw [hmap]
  constructor
  · simp
  · rw [List.forall₂_map_right_iff]
    rw [List.forall₂_same]
    intro f _
    exact autoFixOneFile_frame ho rs f

/-! ## `PhaseImplementation.execute` realtime-fix fan-out -/

/-- The two kinds of promises pushed onto `fixedFilePromises`
(PhaseImplementation.ts lines 413-426): an in-flight realtime-fixer run
(`realtimeCodeFixer.run(...)`, launched without being awaited) or an
already-resolved promise (`Promise.resolve(generatedFile)`). -/
inductive FileFixPromise
  | realtimeFix (file : FileOutput)
  | resolved (file : FileOutput)
deriving DecidableEq

/-- the pre-phase contents lookup of PhaseImplementation.ts line 397: the
contents of the matching entry of `context.allFiles`, defaulting to the
empty string. -/
def findOriginalContents (allFiles : List FileOutput) (path : String) : String :=
  ((allFiles.find? (fun f => f.filePath = path)).map (fun f => f.fileContents)).getD ""

/-- The finalised file built in the file-close callback
(PhaseImplementation.ts lines 397-411): the codec-completed file with its
contents put through `FileProcessing.processGeneratedFileContents` (diff
application / full replace — `domain/pure/FileProcessing`, outside `src/`,
passed as the `processGeneratedFileContents` parameter) against the
pre-phase contents, and its purpose resolved by
`FileProcessing.findFilePurpose` (likewise a parameter, with the phase plan
and known files baked in). -/
def closedFileOutput (processGeneratedFileContents : FileOutput → String → String)
    (findFilePurpose : String → String) (allFiles : List FileOutput)
    (completedFile : FileOutput) : FileOutput :=
  let originalContents := findOriginalContents allFiles completedFile.filePath
  let processed := processGeneratedFileContents completedFile originalContents
  { completedFile with fileContents := processed, filePurpose := findFilePurpose completedFile.filePath }

/-- The promise pushed for one closed file (PhaseImplementation.ts lines
413-426): the realtime fixer is launched exactly when realtime fixing is
enabled and the generated contents span more than 50 lines
(the split of `fileContents` at newlines has more than 50 entries). -/
def closedFilePromise (shouldEnableRealtimeCodeFixer : Bool)
    (processGeneratedFileContents : FileOutput → String → String)
    (findFilePurpose : String → String) (allFiles : List FileOutput)
    (completedFile : FileOutput) : FileFixPromise :=
  let g := closedFileOutput processGeneratedFileContents findFilePurpose allFiles completedFile
  if shouldEnableRealtimeCodeFixer = true ∧ 50 < (splitLines g.fileContents).length then
    FileFixPromise.realtimeFix g
  else FileFixPromise.resolved g

/-- The `fixedFilePromises` array produced by one `execute` run
(PhaseImplementation.ts lines 361, 379-430, 439-443): the stream of
file-close events (each carrying the file the codec finalised in
`completedFiles` — per spec §4.1 the close event fires only after
`completedFiles[path]` is set, so the defensive missing-file guard of line
392 cannot fire) appends one promise per closed file, with
`shouldEnableRealtimeCodeFixer = shouldAutoFix && IsRealtimeCodeFixerEnabled`
(line 368). -/
def phaseImplementationFixedFilePromises (shouldAutoFix isRealtimeCodeFixerEnabled : Bool)
    (processGeneratedFileContents : FileOutput → String → String)
    (findFilePurpose : String → String) (allFiles : List FileOutput)
    (closedFiles : List FileOutput) : List FileFixPromise :=
  closedFiles.foldl
    (fun acc c => acc ++
      [closedFilePromise (shouldAutoFix && isRealtimeCodeFixerEnabled)
        processGeneratedFileContents findFilePurpose allFiles c])
    []

lemma foldl_push_eq_map {α β : Type} (g : α → β) (l : List α) :
    ∀ acc : List β, l.foldl (fun acc c => acc ++ [g c]) acc = acc ++ l.map g := by
  induction l with
  | nil => intro acc; simp
  | cons x xs ih =>
    intro acc
    rw [List.foldl_cons, ih]
    simp

/-- C5: one promise per closed file.  The returned `fixedFilePromises` list
has exactly one entry per file the codec closes, in order; the `i`-th entry
is a launched realtime-fix promise exactly when auto-fixing is enabled and
the `i`-th generated file exceeds 50 lines, and an already-resolved promise
with the generated file otherwise. -/
theorem phaseImplementation_fixedFilePromises_spec
    (shouldAutoFix isRealtimeCodeFixerEnabled : Bool)
    (processGeneratedFileContents : FileOutput → String → String)
    (findFilePurpose : String → String)
    (allFiles closedFiles : List FileOutput) :
    (phaseImplementationFixedFilePromises shouldAutoFix isRealtimeCodeFixerEnabled
      processGeneratedFileContents findFilePurpose allFiles closedFiles).length =
      closedFiles.length ∧
    ∀ i : Nat,
      (phaseImplementationFixedFilePromises shouldAutoFix isRealtimeCodeFixerEnabled
        processGeneratedFileContents findFilePurpose allFiles closedFiles)[i]? =
      (closedFiles[i]?).map (fun c =>
        let g := closedFileOutput processGeneratedFileContents findFilePurpose allFiles c
        if (shouldAutoFix && isRealtimeCodeFixerEnabled) = true ∧
            50 < (splitLines g.fileContents).length then
          FileFixPromise.realtimeFix g
        else FileFixPromise.resolved g) := by
  have hmap : phaseImplementationFixedFilePromises shouldAutoFix isRealtimeCodeFixerEnabled
      processGeneratedFileContents findFilePurpose allFiles closedFiles =
      closedFiles.map (closedFilePromise (shouldAutoFix && isRealtimeCodeFixerEnabled)
        processGeneratedFileContents findFilePurpose allFiles) := by
    unfold phaseImplementationFixedFilePromises
    rw [foldl_push_eq_map]
    simp
  rw [hmap]
  constructor
  · simp
  · intro i
    rw [List.getElem?_map]
    rfl

/-- A generated file spanning 60 lines (exceeds the 50-line threshold). -/
def exLongFile : FileOutput :=
  { filePath := "src/Long.tsx",
    fileContents := String.intercalate "\n" (List.replicate 60 "const a = 1;"),
    filePurpose := "long" }

/-- A short generated file (below the 50-line threshold). -/
def exShortFile : FileOutput :=
  { filePath := "src/Short.tsx",
    fileContents := "export const y = 2;",
    filePurpose := "short" }

/-- The identity content processor used by the concrete instance (stands
for a `processGeneratedFileContents` run on `full_content` output). -/
def pcId : FileOutput → String → String := fun f _ => f.fileContents

/-- A constant purpose resolver for the concrete instance. -/
def fpConst : String → String := fun _ => "Generated file"

set_option maxRecDepth 10000 in
/-- C5 witness: spec scenario B — a phase closing 2 files, one exceeding 50
lines, with auto-fix enabled, yields `fixedFilePromises.length = 2`, the
entry of the long file launching the realtime fixer and the entry of the
short file already resolved. -/
theorem phaseImplementation_fixedFilePromises_spec_witness :
    (phaseImplementationFixedFilePromises true true pcId fpConst []
      [exLongFile, exShortFile]).length = 2 ∧
    (phaseImplementationFixedFilePromises true true pcId fpConst []
      [exLongFile, exShortFile])[0]? =
      some (FileFixPromise.realtimeFix (closedFileOutput pcId fpConst [] exLongFile)) ∧
    (phaseImplementationFixedFilePromises true true pcId fpConst []
      [exLongFile, exShortFile])[1]? =
      some (FileFixPromise.resolved (closedFileOutput pcId fpConst [] exShortFile)) := by
  have h := phaseImplementation_fixedFilePromises_spec true true pcId fpConst []
    [exLongFile, exShortFile]
  refine ⟨h.1, ?_, ?_⟩
  · rw [h.2 0]
    decide
  · rw [h.2 1]
    decide

/-! ## `PhaseGeneration.execute` reasoning-effort arbitration -/

/-- The reasoning effort levels of the inference configuration. -/
inductive ReasoningEffort
  | low
  | medium
  | high
deriving DecidableEq

/-- `UserContext` (`core/types`, outside `src/`): the optional suggestions
list queued by the conversation agent plus attached images. -/
structure UserContext where
  suggestions : Option (List String)
  images : List ImageAttachment
deriving DecidableEq

/-- `IssueReport` (`domain/values/IssueReport`, outside `src/`), modelled
from spec §3: runtime errors plus static-analysis results; the embedded
operations consult only `runtimeErrors`. -/
structure IssueReport where
  runtimeErrors : List RuntimeError
  lintIssues : List String
  typecheckIssues : List String
deriving DecidableEq

/-- The `reasoningEffort` computation of `PhaseGenerationOperation.execute`
(PhaseGeneration.ts lines 419-422):
`hasHighPriorityWork = userContext?.suggestions || issues.runtimeErrors.length > 0`
— note that a present suggestions ARRAY is JS-truthy even when empty — and
the override `low → medium, else → high` of the configured default
(`AGENT_CONFIG.phaseGeneration.reasoning_effort`, from `inferutils/config`
outside `src/`, passed as `configEffort`); `none` means no override is
passed to the inference call. -/
def phaseGenerationReasoningEffort (configEffort : Option ReasoningEffort)
    (userContext : Option UserContext) (issues : IssueReport) :
    Option ReasoningEffort :=
  let hasHighPriorityWork :=
    (userContext.bind (fun uc => uc.suggestions)).isSome ||
      decide (0 < issues.runtimeErrors.length)
  if hasHighPriorityWork = true then
    some (if configEffort = some ReasoningEffort.low then ReasoningEffort.medium
      else ReasoningEffort.high)
  else none

/-- C7 (amended): the reasoning effort is overridden exactly when runtime
errors exist OR the user context carries a suggestions list — even an empty
one, since a present array is JS-truthy (the original claim wording of pending
suggestions fails for an empty list,
`phaseGeneration_emptySuggestions_counterexample`); the override is
`medium` when the configured default effort is `low` and `high` otherwise,
and no override is passed when neither condition holds. -/
theorem phaseGeneration_reasoningEffort_spec (configEffort : Option ReasoningEffort)
    (userContext : Option UserContext) (issues : IssueReport) :
    (phaseGenerationReasoningEffort configEffort userContext issues = none ↔
      (userContext.bind (fun uc => uc.suggestions) = none ∧
        issues.runtimeErrors = [])) ∧
    (((userContext.bind (fun uc => uc.suggestions)).isSome = true ∨
        issues.runtimeErrors ≠ []) →
      phaseGenerationReasoningEffort configEffort userContext issues =
        some (if configEffort = some ReasoningEffort.low then ReasoningEffort.medium
          else ReasoningEffort.high)) := by
  unfold phaseGenerationReasoningEffort
  generalize userContext.bind (fun uc => uc.suggestions) = s
  generalize issues.runtimeErrors = es
  cases s <;> cases es <;> simp

/-- C7 witness: a pending suggestion with default effort `low` raises the
effort to `medium`, and with no suggestions object and no runtime errors no
override is produced. -/
theorem phaseGeneration_reasoningEffort_spec_witness :
    phaseGenerationReasoningEffort (some ReasoningEffort.low)
        (some { suggestions := some ["add dark mode"], images := [] })
        { runtimeErrors := [], lintIssues := [], typecheckIssues := [] } =
      some ReasoningEffort.medium ∧
    phaseGenerationReasoningEffort (some ReasoningEffort.low) none
        { runtimeErrors := [], lintIssues := [], typecheckIssues := [] } = none := by
  constructor
  · exact (phaseGeneration_reasoningEffort_spec (some ReasoningEffort.low)
      (some { suggestions := some ["add dark mode"], images := [] })
      { runtimeErrors := [], lintIssues := [], typecheckIssues := [] }).2
      (Or.inl (by decide))
  · exact (phaseGeneration_reasoningEffort_spec (some ReasoningEffort.low) none
      { runtimeErrors := [], lintIssues := [], typecheckIssues := [] }).1.mpr
      ⟨rfl, rfl⟩

/-- A user context carrying an EMPTY suggestions array. -/
def exEmptySuggestionsContext : Option UserContext :=
  some { suggestions := some [], images := [] }

/-- An issue report without runtime errors. -/
def exNoIssues : IssueReport :=
  { runtimeErrors := [], lintIssues := [], typecheckIssues := [] }

/-- C7 counterexample: with no runtime errors and an empty suggestions list
(no suggestion is pending), the code still raises the reasoning effort
(`[]` is JS-truthy), contradicting the claim that the default is kept when
neither condition holds. -/
theorem phaseGeneration_emptySuggestions_counterexample :
    exNoIssues.runtimeErrors = [] ∧
    exEmptySuggestionsContext.bind (fun uc => uc.suggestions) = some [] ∧
    phaseGenerationReasoningEffort (some ReasoningEffort.low)
      exEmptySuggestionsContext exNoIssues = some ReasoningEffort.medium ∧
    ¬ phaseGenerationReasoningEffort (some ReasoningEffort.low)
      exEmptySuggestionsContext exNoIssues = none :=
  ⟨rfl, rfl, by decide, by decide⟩

/-! ## `ScreenshotAnalysis.execute` -/

/-- The `uiCompliance` component of the screenshot analysis schema. -/
structure UiCompliance where
  matchesBlueprint : Bool
  deviations : List String
deriving DecidableEq

/-- `ScreenshotAnalysisType` (`schemas`, outside `src/`), modelled from the
fields `execute` reads: `hasIssues`, `issues`, and `uiCompliance`. -/
structure ScreenshotAnalysisResult where
  hasIssues : Bool
  issues : List String
  uiCompliance : UiCompliance
deriving DecidableEq

/-- The failures `ScreenshotAnalysisOperation.execute` can surface (each is
logged and rethrown through `OperationError.logAndThrow`). -/
inductive ScreenshotAnalysisError
  | noScreenshot
  | inferenceError (message : String)
  | noResult
deriving DecidableEq

/-- `ScreenshotAnalysisOperation.execute` (ScreenshotAnalysis.ts lines
307-368): guard the JS-falsy screenshot (`!screenshotData.screenshot`),
run the vision inference, and return the schema-validated analysis object
as-is.  The operation imports no image-URL utility and issues no HEAD
request: the returned report is exactly the inference result. -/
def screenshotAnalysisExecute (screenshot : Option String)
    (inferenceOutcome : Except String (Option ScreenshotAnalysisResult)) :
    Except ScreenshotAnalysisError ScreenshotAnalysisResult :=
  if screenshot.getD "" = "" then Except.error ScreenshotAnalysisError.noScreenshot
  else
    match inferenceOutcome with
    | Except.error m => Except.error (ScreenshotAnalysisError.inferenceError m)
    | Except.ok none => Except.error ScreenshotAnalysisError.noResult
    | Except.ok (some r) => Except.ok r

/-- C6 (amended): `ScreenshotAnalysis.execute` returns the AI-produced
compliance report unchanged — no independent image-URL validation pass
augments the issue list (that non-AI validation exists only in the
image-url-validator utilities used by the fast-code-fixer pre-pass); in
particular the returned issues are exactly the issues of the vision
model. -/
theorem screenshotAnalysis_returns_inference_result (screenshot : String)
    (r : ScreenshotAnalysisResult) (h : ¬ screenshot = "") :
    screenshotAnalysisExecute (some screenshot) (Except.ok (some r)) =
      Except.ok r := by
  unfold screenshotAnalysisExecute
  rw [Option.getD_some, if_neg h]

/-- A concrete AI analysis result with one reported issue. -/
def exAnalysisWithIssues : ScreenshotAnalysisResult :=
  { hasIssues := true, issues := ["button overlaps header"], uiCompliance := { matchesBlueprint := false, deviations := ["header layout"] } }

/-- C6 witness: a concrete successful analysis is passed through
unchanged. -/
theorem screenshotAnalysis_returns_inference_result_witness :
    screenshotAnalysisExecute (some "data:image/png;base64,AAAA")
        (Except.ok (some exAnalysisWithIssues)) =
      Except.ok exAnalysisWithIssues :=
  screenshotAnalysis_returns_inference_result "data:image/png;base64,AAAA"
    exAnalysisWithIssues (by decide)

/-- A codebase file content referencing one (broken) Unsplash image URL. -/
def exCodebaseContent : String :=
  "<img src=\"https://images.unsplash.com/photo-abc123.jpg\" />"

/-- The broken image URL referenced by `exCodebaseContent`. -/
def brokenImageUrl : String := "https://images.unsplash.com/photo-abc123.jpg"

/-- An AI analysis that reports no issues (the vision model missed the
broken image). -/
def exAnalysisNoIssues : ScreenshotAnalysisResult :=
  { hasIssues := false, issues := [],
    uiCompliance := { matchesBlueprint := true, deviations := [] } }

/-- C6 counterexample: the codebase references an image URL whose HEAD
validation fails (404), the report of the vision model misses it, and `execute`
returns that report verbatim — the broken URL appears nowhere in the
returned issue list, so the claimed non-AI augmentation pass does not
exist in the code. -/
theorem screenshotAnalysis_missing_url_augmentation_counterexample :
    extractUnsplashUrls exCodebaseContent = [brokenImageUrl] ∧
    (validateImageUrl "seed" brokenImageUrl (HeadOutcome.response false 404)).isValid
      = false ∧
    screenshotAnalysisExecute (some "data:image/png;base64,AAAA")
        (Except.ok (some exAnalysisNoIssues)) = Except.ok exAnalysisNoIssues ∧
    exAnalysisNoIssues.issues = [] :=
  ⟨by decide, by decide, rfl, rfl⟩
